import Mathlib

/-!
Verification of the mcrcon RCON client against its source.

Shallow embedding of:
- src/mcrcon/protocol.py : Packet, Packet.encode, Packet.decode
- src/mcrcon/client.py   : RconClient.authenticate, RconClient.command,
  RconClient._send, RconClient._recv, RconClient._recv_exact, and the
  process-wide request id counter (itertools.count(1)) and _SENTINEL_ID
- src/mcrcon/repl.py     : _reconnect (exponential backoff)

Bytes are modelled as Nat (each < 256 on every path the code produces),
byte strings as List Nat, Python str as Lean String.  Python's
str.encode("utf-8") and bytes.decode("utf-8", errors="replace") are
modelled by an explicit UTF-8 codec below.  Socket I/O is modelled by
explicit event streams: each call to socket.recv consumes one RecvEvent
(a chunk of bytes, a timeout, or an OS error), and each sendall is given
one SendEvent.  Exceptions are modelled by the Outcome type.
-/

/-- The U+FFFD replacement character produced by errors="replace". -/
def replacementChar : Char := Char.ofNat 0xFFFD

/-- Is the byte a UTF-8 continuation byte (0b10xxxxxx)? -/
def isContByte (b : Nat) : Bool := 0x80 ≤ b && b < 0xC0

/-- UTF-8 encoding of a single unicode scalar value (Python: chr.encode("utf-8")). -/
def utf8EncodeChar (c : Char) : List Nat :=
  let n := c.toNat
  if n < 0x80 then [n]
  else if n < 0x800 then
    [0xC0 + n / 64, 0x80 + n % 64]
  else if n < 0x10000 then
    [0xE0 + n / 4096, 0x80 + n / 64 % 64, 0x80 + n % 64]
  else
    [0xF0 + n / 262144, 0x80 + n / 4096 % 64, 0x80 + n / 64 % 64, 0x80 + n % 64]

/-- Python str.encode("utf-8"): the concatenation of the per-character encodings. -/
def utf8Encode (s : String) : List Nat :=
  s.data.foldr (fun c acc => utf8EncodeChar c ++ acc) []

/-- Decode one UTF-8 scalar value from leading byte b and the remaining
bytes, with errors="replace": malformed sequences (bad leading byte,
missing or bad continuation bytes, overlong forms, surrogates,
out-of-range values) yield U+FFFD.  Returns the character and the bytes
left over. -/
def utf8DecodeStep (b : Nat) (rest : List Nat) : Char × List Nat :=
  if b < 0x80 then (Char.ofNat b, rest)
  else if b < 0xC2 then
    -- stray continuation byte or overlong-only leading byte (0xC0/0xC1)
    (replacementChar, rest)
  else if b < 0xE0 then
    match rest with
    | b1 :: rest1 =>
      if isContByte b1 then (Char.ofNat ((b - 0xC0) * 64 + (b1 - 0x80)), rest1)
      else (replacementChar, rest)
    | [] => (replacementChar, [])
  else if b < 0xF0 then
    match rest with
    | b1 :: b2 :: rest2 =>
      if isContByte b1 && isContByte b2 then
        let v := (b - 0xE0) * 4096 + (b1 - 0x80) * 64 + (b2 - 0x80)
        if v < 0x800 || (0xD800 ≤ v && v < 0xE000) then (replacementChar, rest2)
        else (Char.ofNat v, rest2)
      else (replacementChar, rest)
    | _ => (replacementChar, [])
  else if b < 0xF5 then
    match rest with
    | b1 :: b2 :: b3 :: rest3 =>
      if isContByte b1 && isContByte b2 && isContByte b3 then
        let v := (b - 0xF0) * 262144 + (b1 - 0x80) * 4096 + (b2 - 0x80) * 64 + (b3 - 0x80)
        if v < 0x10000 || 0x110000 ≤ v then (replacementChar, rest3)
        else (Char.ofNat v, rest3)
      else (replacementChar, rest)
    | _ => (replacementChar, [])
  else (replacementChar, rest)

theorem utf8DecodeStep_length (b : Nat) (rest : List Nat) :
    (utf8DecodeStep b rest).2.length ≤ rest.length := by
  unfold utf8DecodeStep
  repeat' split
  all_goals try simp_all [apply_ite, List.length_cons]
  all_goals omega

/-- UTF-8 decoding of a byte list into characters, with errors="replace". -/
def utf8DecodeAux : List Nat → List Char
  | [] => []
  | b :: rest =>
    (utf8DecodeStep b rest).1 :: utf8DecodeAux (utf8DecodeStep b rest).2
termination_by l => l.length
decreasing_by
  simp only [List.length_cons]
  exact Nat.lt_succ_of_le (utf8DecodeStep_length b rest)

/-- Python bytes.decode("utf-8", errors="replace"). -/
def utf8DecodeBytes (bs : List Nat) : String := String.mk (utf8DecodeAux bs)

theorem utf8DecodeAux_nil : utf8DecodeAux [] = [] := by
  rw [utf8DecodeAux]

theorem utf8DecodeAux_cons (b : Nat) (rest : List Nat) :
    utf8DecodeAux (b :: rest)
      = (utf8DecodeStep b rest).1 :: utf8DecodeAux (utf8DecodeStep b rest).2 := by
  rw [utf8DecodeAux]

theorem utf8Encode_cons (c : Char) (cs : List Char) :
    utf8Encode (String.mk (c :: cs)) = utf8EncodeChar c ++ utf8Encode (String.mk cs) := rfl

/-- Decoding one step at the start of an encoded character recovers that
character exactly, leaving the remaining bytes untouched. -/
theorem utf8DecodeAux_encodeChar (c : Char) (l : List Nat) :
    utf8DecodeAux (utf8EncodeChar c ++ l) = c :: utf8DecodeAux l := by
  have hvalid : c.toNat < 0xd800 ∨ (0xdfff < c.toNat ∧ c.toNat < 0x110000) := c.valid
  have hofNat : Char.ofNat c.toNat = c := Char.ofNat_toNat c
  by_cases h1 : c.toNat < 0x80
  · have henc : utf8EncodeChar c = [c.toNat] := by
      unfold utf8EncodeChar
      rw [if_pos h1]
    rw [henc]
    show utf8DecodeAux (c.toNat :: l) = c :: utf8DecodeAux l
    rw [utf8DecodeAux_cons]
    have hstep : utf8DecodeStep c.toNat l = (c, l) := by
      unfold utf8DecodeStep
      rw [if_pos h1, hofNat]
    rw [hstep]
  · by_cases h2 : c.toNat < 0x800
    · have henc : utf8EncodeChar c = [0xC0 + c.toNat / 64, 0x80 + c.toNat % 64] := by
        unfold utf8EncodeChar
        rw [if_neg h1, if_pos h2]
      rw [henc]
      show utf8DecodeAux ((0xC0 + c.toNat / 64) :: (0x80 + c.toNat % 64) :: l)
        = c :: utf8DecodeAux l
      rw [utf8DecodeAux_cons]
      have hstep : utf8DecodeStep (0xC0 + c.toNat / 64) ((0x80 + c.toNat % 64) :: l)
          = (c, l) := by
        unfold utf8DecodeStep
        rw [if_neg (by omega), if_neg (by omega), if_pos (by omega)]
        dsimp only
        have hcont : isContByte (0x80 + c.toNat % 64) = true := by
          unfold isContByte
          simp only [Bool.and_eq_true, decide_eq_true_eq]
          omega
        rw [if_pos hcont]
        have hval : (0xC0 + c.toNat / 64 - 0xC0) * 64 + (0x80 + c.toNat % 64 - 0x80)
            = c.toNat := by omega
        rw [hval, hofNat]
      rw [hstep]
    · by_cases h3 : c.toNat < 0x10000
      · have henc : utf8EncodeChar c
            = [0xE0 + c.toNat / 4096, 0x80 + c.toNat / 64 % 64, 0x80 + c.toNat % 64] := by
          unfold utf8EncodeChar
          rw [if_neg h1, if_neg h2, if_pos h3]
        rw [henc]
        show utf8DecodeAux ((0xE0 + c.toNat / 4096) :: (0x80 + c.toNat / 64 % 64)
          :: (0x80 + c.toNat % 64) :: l) = c :: utf8DecodeAux l
        rw [utf8DecodeAux_cons]
        have hstep : utf8DecodeStep (0xE0 + c.toNat / 4096)
            ((0x80 + c.toNat / 64 % 64) :: (0x80 + c.toNat % 64) :: l) = (c, l) := by
          unfold utf8DecodeStep
          rw [if_neg (by omega), if_neg (by omega), if_neg (by omega), if_pos (by omega)]
          dsimp only
          have hcont : (isContByte (0x80 + c.toNat / 64 % 64)
              && isContByte (0x80 + c.toNat % 64)) = true := by
            unfold isContByte
            simp only [Bool.and_eq_true, decide_eq_true_eq]
            omega
          rw [if_pos hcont]
          have hval : (0xE0 + c.toNat / 4096 - 0xE0) * 4096
              + (0x80 + c.toNat / 64 % 64 - 0x80) * 64 + (0x80 + c.toNat % 64 - 0x80)
              = c.toNat := by omega
          rw [hval]
          have hok : (decide (c.toNat < 0x800) || (decide (0xD800 ≤ c.toNat)
              && decide (c.toNat < 0xE000))) = false := by
            simp only [Bool.or_eq_false_iff, Bool.and_eq_false_iff, decide_eq_false_iff_not]
            omega
          rw [if_neg (by simp only [hok]; exact Bool.false_ne_true), hofNat]
        rw [hstep]
      · have h4 : c.toNat < 0x110000 := by omega
        have henc : utf8EncodeChar c
            = [0xF0 + c.toNat / 262144, 0x80 + c.toNat / 4096 % 64,
               0x80 + c.toNat / 64 % 64, 0x80 + c.toNat % 64] := by
          unfold utf8EncodeChar
          rw [if_neg h1, if_neg h2, if_neg h3]
        rw [henc]
        show utf8DecodeAux ((0xF0 + c.toNat / 262144) :: (0x80 + c.toNat / 4096 % 64)
          :: (0x80 + c.toNat / 64 % 64) :: (0x80 + c.toNat % 64) :: l)
          = c :: utf8DecodeAux l
        rw [utf8DecodeAux_cons]
        have hstep : utf8DecodeStep (0xF0 + c.toNat / 262144)
            ((0x80 + c.toNat / 4096 % 64) :: (0x80 + c.toNat / 64 % 64)
              :: (0x80 + c.toNat % 64) :: l) = (c, l) := by
          unfold utf8DecodeStep
          rw [if_neg (by omega), if_neg (by omega), if_neg (by omega), if_neg (by omega),
            if_pos (by omega)]
          dsimp only
          have hcont : (isContByte (0x80 + c.toNat / 4096 % 64)
              && isContByte (0x80 + c.toNat / 64 % 64)
              && isContByte (0x80 + c.toNat % 64)) = true := by
            unfold isContByte
            simp only [Bool.and_eq_true, decide_eq_true_eq]
            omega
          rw [if_pos hcont]
          have hval : (0xF0 + c.toNat / 262144 - 0xF0) * 262144
              + (0x80 + c.toNat / 4096 % 64 - 0x80) * 4096
              + (0x80 + c.toNat / 64 % 64 - 0x80) * 64 + (0x80 + c.toNat % 64 - 0x80)
              = c.toNat := by omega
          rw [hval]
          have hok : (decide (c.toNat < 0x10000) || decide (0x110000 ≤ c.toNat)) = false := by
            simp only [Bool.or_eq_false_iff, decide_eq_false_iff_not]
            omega
          rw [if_neg (by simp only [hok]; exact Bool.false_ne_true), hofNat]
        rw [hstep]

/-- UTF-8 round trip on character lists. -/
theorem utf8DecodeAux_encode_list (cs : List Char) :
    utf8DecodeAux (utf8Encode (String.mk cs)) = cs := by
  induction cs with
  | nil => exact utf8DecodeAux_nil
  | cons c cs ih =>
    rw [utf8Encode_cons, utf8DecodeAux_encodeChar, ih]

/-- UTF-8 round trip: decoding the encoding of any string gives it back. -/
theorem utf8_roundtrip (s : String) : utf8DecodeBytes (utf8Encode s) = s := by
  cases s with
  | mk cs =>
    unfold utf8DecodeBytes
    rw [utf8DecodeAux_encode_list]

/-! ## Signed 32-bit little-endian packing (Python struct format "<i") -/

/-- struct.pack "<i": four little-endian bytes of the two's-complement
representation of v.  struct.pack range-checks its argument; theorems
about in-range values carry the corresponding hypotheses. -/
def int32ToBytes (v : Int) : List Nat :=
  let u := (v % 4294967296).toNat
  [u % 256, u / 256 % 256, u / 65536 % 256, u / 16777216 % 256]

/-- struct.unpack "<i": exactly four bytes decode to a signed Int;
any other byte count raises struct.error (modelled as none). -/
def unpackInt32 : List Nat → Option Int
  | [b0, b1, b2, b3] =>
    let u : Nat := b0 + 256 * b1 + 65536 * b2 + 16777216 * b3
    some (if u < 2147483648 then (u : Int) else (u : Int) - 4294967296)
  | _ => none

theorem int32ToBytes_length (v : Int) : (int32ToBytes v).length = 4 := rfl

/-- "<i" round trip for every value struct.pack accepts. -/
theorem unpackInt32_int32ToBytes (v : Int)
    (hlo : -2147483648 ≤ v) (hhi : v < 2147483648) :
    unpackInt32 (int32ToBytes v) = some v := by
  unfold int32ToBytes unpackInt32
  have h1 : (0 : Int) ≤ v % 4294967296 := Int.emod_nonneg v (by norm_num)
  have h2 : v % 4294967296 < 4294967296 := Int.emod_lt_of_pos v (by norm_num)
  have hu : ((v % 4294967296).toNat : Int) = v % 4294967296 := Int.toNat_of_nonneg h1
  simp only [Option.some.injEq]
  split
  · omega
  · omega

/-! ## The wire packet (src/mcrcon/protocol.py) -/

/-! RCON packet types (protocol.py PacketType, an IntEnum). -/

namespace PacketType

def RESPONSE : Int := 0
def COMMAND : Int := 2
def LOGIN : Int := 3

end PacketType

/-- A single RCON packet (protocol.py Packet).
Wire format: [length:i32][request_id:i32][type:i32][payload NUL NUL];
length covers everything after itself. -/
structure Packet where
  request_id : Int
  packet_type : Int
  payload : String
deriving DecidableEq, Repr

/-- Packet.encode: length, request_id and packet_type little-endian
signed 32-bit, then the UTF-8 payload and two NUL bytes
(struct.pack "<iii{n}s"). -/
def Packet.encode (p : Packet) : List Nat :=
  let payload_bytes := utf8Encode p.payload ++ [0, 0]
  let length : Int := 4 + 4 + payload_bytes.length
  int32ToBytes length ++ int32ToBytes p.request_id
    ++ int32ToBytes p.packet_type ++ payload_bytes

/-- Packet.decode: from raw bytes excluding the 4-byte length prefix.
struct.unpack_from "<ii" needs at least 8 bytes (else struct.error,
modelled as none); the payload is data[8:-2] decoded as UTF-8 with
errors="replace". -/
def Packet.decode (data : List Nat) : Option Packet :=
  if data.length < 8 then none
  else
    match unpackInt32 (data.take 4), unpackInt32 ((data.drop 4).take 4) with
    | some rid, some ty =>
      some ⟨rid, ty, utf8DecodeBytes ((data.drop 8).dropLast.dropLast)⟩
    | _, _ => none

/-- The ranges struct.pack "<iii" accepts for the two id fields, plus a
payload small enough that the length field itself is in "<i" range. -/
def validPacket (p : Packet) : Prop :=
  -2147483648 ≤ p.request_id ∧ p.request_id < 2147483648 ∧
  -2147483648 ≤ p.packet_type ∧ p.packet_type < 2147483648 ∧
  (utf8Encode p.payload).length + 10 < 2147483648

instance (p : Packet) : Decidable (validPacket p) := by
  unfold validPacket
  infer_instance

theorem encode_drop4 (p : Packet) :
    p.encode.drop 4
      = int32ToBytes p.request_id
        ++ (int32ToBytes p.packet_type ++ (utf8Encode p.payload ++ [0, 0])) := by
  unfold Packet.encode
  dsimp only
  exact List.drop_left' (int32ToBytes_length _)

theorem decode_encode_aux (id ty : Int) (s : String)
    (h1 : -2147483648 ≤ id) (h2 : id < 2147483648)
    (h3 : -2147483648 ≤ ty) (h4 : ty < 2147483648) :
    Packet.decode ((Packet.mk id ty s).encode.drop 4) = some (Packet.mk id ty s) := by
  rw [encode_drop4]
  unfold Packet.decode
  rw [if_neg (by simp [int32ToBytes_length]; omega)]
  rw [List.take_left' (int32ToBytes_length id)]
  rw [List.drop_left' (int32ToBytes_length id)]
  rw [List.take_left' (int32ToBytes_length ty)]
  rw [unpackInt32_int32ToBytes id h1 h2, unpackInt32_int32ToBytes ty h3 h4]
  dsimp only
  have hdrop8 : (int32ToBytes id
      ++ (int32ToBytes ty ++ (utf8Encode s ++ [0, 0]))).drop 8
      = utf8Encode s ++ [0, 0] := by
    have e1 : (8 : Nat) = 4 + 4 := rfl
    rw [e1, ← List.drop_drop, List.drop_left' (int32ToBytes_length id),
      List.drop_left' (int32ToBytes_length ty)]
  rw [hdrop8]
  have hlast : (utf8Encode s ++ [0, 0]).dropLast.dropLast = utf8Encode s := by
    have e2 : utf8Encode s ++ [0, 0] = (utf8Encode s ++ [0]) ++ [0] := by
      rw [List.append_assoc]
      rfl
    rw [e2, List.dropLast_concat, List.dropLast_concat]
  rw [hlast, utf8_roundtrip]

/-- Claim C3: for every signed 32-bit requestId, every packet type and
every text payload (empty and non-ASCII included), decoding the encoding
after dropping the 4-byte length prefix yields the original packet. -/
theorem Packet.decode_encode (id ty : Int) (s : String)
    (h1 : -2147483648 ≤ id) (h2 : id < 2147483648)
    (h3 : -2147483648 ≤ ty) (h4 : ty < 2147483648) :
    Packet.decode ((Packet.mk id ty s).encode.drop 4) = some (Packet.mk id ty s) :=
  decode_encode_aux id ty s h1 h2 h3 h4

/-- Witness for C3 at a concrete packet with a negative id and a payload
mixing 1-, 2-, 3- and 4-byte UTF-8 characters. -/
theorem Packet.decode_encode_witness :
    Packet.decode ((Packet.mk (-7) 2 ("héllo €𝄞")).encode.drop 4)
      = some (Packet.mk (-7) 2 ("héllo €𝄞")) :=
  Packet.decode_encode (-7) 2 ("héllo €𝄞")
    (by decide) (by decide) (by decide) (by decide)

theorem encode_take4_aux (p : Packet) :
    p.encode.take 4
      = int32ToBytes (8 + ((utf8Encode p.payload).length : Int) + 2) := by
  have htake : p.encode.take 4
      = int32ToBytes (4 + 4 + ((utf8Encode p.payload ++ [0, 0]).length : Int)) := by
    unfold Packet.encode
    dsimp only
    exact List.take_left' (int32ToBytes_length _)
  rw [htake]
  congr 1
  simp only [List.length_append, List.length_cons, List.length_nil]
  push_cast
  ring

/-- Claim C7: the leading 4-byte little-endian length field always equals
8 + utf8-byte-length(payload) + 2, including for the empty payload. -/
theorem Packet.encode_lengthField (p : Packet) :
    p.encode.take 4
      = int32ToBytes (8 + ((utf8Encode p.payload).length : Int) + 2) :=
  encode_take4_aux p

/-! ## Transport model (src/mcrcon/client.py)

The socket is modelled by its connection state (`_sock is not None`
becomes a Bool) plus an explicit stream of events: each call to
socket.recv consumes one RecvEvent, and each sendall consumes its
SendEvent.  A `chunk bs` event is the bytes that call to recv returned
(empty = peer closed the connection), `timeout` is a raised
TimeoutError, `oserror msg` any other raised OSError. -/

/-- The exceptions the client can raise: ConnectionError with its
message, TimeoutError, AuthenticationError with its message, and
struct.error (raised by struct.unpack on a wrong-sized buffer and
caught nowhere). -/
inductive Err where
  | connError (msg : String)
  | timeoutErr
  | authError (msg : String)
  | structErr
deriving DecidableEq, Repr

/-- Result of running a client operation against an event stream:
a normal return, a raised exception, or blocking forever because the
stream ran out of events. -/
inductive Outcome (α : Type) where
  | ok (a : α)
  | err (e : Err)
  | blocked
deriving DecidableEq, Repr

/-- What one call to socket.recv does. -/
inductive RecvEvent where
  | chunk (bytes : List Nat)
  | timeout
  | oserror (msg : String)
deriving DecidableEq, Repr

/-- What one call to socket.sendall does. -/
inductive SendEvent where
  | ok
  | oserror (msg : String)
deriving DecidableEq, Repr

/-- RconClient._send: raise ConnectionError("Not connected") when there
is no socket; on OSError close the socket and raise
ConnectionError("Failed to send data: ...").  Returns the raised error
(none on success) and the connection state afterwards. -/
def sendP (sock : Bool) (_p : Packet) (ev : SendEvent) : Option Err × Bool :=
  if sock then
    match ev with
    | .ok => (none, true)
    | .oserror msg => (some (.connError ("Failed to send data: " ++ msg)), false)
  else (some (.connError ("Not connected")), false)

/-- The read loop of RconClient._recv_exact: while fewer than n bytes
are accumulated, call recv; a TimeoutError propagates; any other
OSError closes the socket and becomes ConnectionError("Connection
lost: ..."); an empty chunk closes the socket and becomes
ConnectionError("Connection closed by server"). -/
def recvLoop (n : Nat) (acc : List Nat) (evs : List RecvEvent) :
    Outcome (List Nat) × Bool × List RecvEvent :=
  if n ≤ acc.length then (.ok acc, true, evs)
  else
    match evs with
    | [] => (.blocked, true, [])
    | .timeout :: rest => (.err .timeoutErr, true, rest)
    | .oserror msg :: rest =>
      (.err (.connError ("Connection lost: " ++ msg)), false, rest)
    | .chunk [] :: rest =>
      (.err (.connError ("Connection closed by server")), false, rest)
    | .chunk (b :: bs) :: rest => recvLoop n (acc ++ b :: bs) rest

/-- RconClient._recv_exact: fail with ConnectionError("Not connected")
when there is no socket, else run the read loop. -/
def recvExact (sock : Bool) (n : Nat) (evs : List RecvEvent) :
    Outcome (List Nat) × Bool × List RecvEvent :=
  if sock then recvLoop n [] evs
  else (.err (.connError ("Not connected")), false, evs)

/-- RconClient._recv: read the 4-byte length prefix, unpack it as "<i",
read that many bytes and decode them as a Packet. -/
def recv (sock : Bool) (evs : List RecvEvent) :
    Outcome Packet × Bool × List RecvEvent :=
  match recvExact sock 4 evs with
  | (.ok lenBytes, sock1, evs1) =>
    match unpackInt32 lenBytes with
    | none => (.err .structErr, sock1, evs1)
    | some len =>
      match recvExact sock1 len.toNat evs1 with
      | (.ok body, sock2, evs2) =>
        match Packet.decode body with
        | some p => (.ok p, sock2, evs2)
        | none => (.err .structErr, sock2, evs2)
      | (.err e, sock2, evs2) => (.err e, sock2, evs2)
      | (.blocked, sock2, evs2) => (.blocked, sock2, evs2)
  | (.err e, sock1, evs1) => (.err e, sock1, evs1)
  | (.blocked, sock1, evs1) => (.blocked, sock1, evs1)

theorem recvLoop_events_length (n : Nat) (evs : List RecvEvent) :
    ∀ acc, (recvLoop n acc evs).2.2.length ≤ evs.length := by
  induction evs with
  | nil =>
    intro acc
    unfold recvLoop
    split <;> simp
  | cons e rest ih =>
    intro acc
    unfold recvLoop
    split
    · simp
    · cases e with
      | timeout => simp
      | oserror msg => simp
      | chunk bs =>
        cases bs with
        | nil => simp
        | cons b bs' =>
          simp only [List.length_cons]
          exact Nat.le_succ_of_le (ih _)

theorem recvLoop_ok_consumes (n : Nat) (acc : List Nat) (evs : List RecvEvent)
    (bs : List Nat) (sock1 : Bool) (evs1 : List RecvEvent)
    (hacc : acc.length < n)
    (h : recvLoop n acc evs = (.ok bs, sock1, evs1)) :
    evs1.length < evs.length := by
  unfold recvLoop at h
  rw [if_neg (by omega)] at h
  cases evs with
  | nil => simp at h
  | cons e rest =>
    cases e with
    | timeout => simp at h
    | oserror msg => simp at h
    | chunk cbs =>
      cases cbs with
      | nil => simp at h
      | cons b bs'' =>
        dsimp only at h
        have hle := recvLoop_events_length n rest (acc ++ b :: bs'')
        rw [h] at hle
        simp only [List.length_cons] at hle ⊢
        omega

theorem recvExact_events_length (sock : Bool) (n : Nat) (evs : List RecvEvent) :
    (recvExact sock n evs).2.2.length ≤ evs.length := by
  unfold recvExact
  split
  · exact recvLoop_events_length n evs []
  · simp

theorem recvExact_ok_consumes (sock : Bool) (n : Nat) (evs : List RecvEvent)
    (bs : List Nat) (sock1 : Bool) (evs1 : List RecvEvent)
    (hn : 0 < n) (h : recvExact sock n evs = (.ok bs, sock1, evs1)) :
    evs1.length < evs.length := by
  unfold recvExact at h
  split at h
  · exact recvLoop_ok_consumes n [] evs bs sock1 evs1 (by simpa using hn) h
  · simp at h

theorem recv_ok_consumes (sock : Bool) (evs : List RecvEvent)
    (p : Packet) (sock1 : Bool) (evs1 : List RecvEvent)
    (h : recv sock evs = (.ok p, sock1, evs1)) :
    evs1.length < evs.length := by
  unfold recv at h
  rcases hx : recvExact sock 4 evs with ⟨o1, sockA, evsA⟩
  rw [hx] at h
  cases o1 with
  | err e => simp at h
  | blocked => simp at h
  | ok lenBytes =>
    have hltA : evsA.length < evs.length :=
      recvExact_ok_consumes sock 4 evs lenBytes sockA evsA (by omega) hx
    dsimp only at h
    cases hu : unpackInt32 lenBytes with
    | none => rw [hu] at h; simp at h
    | some len =>
      rw [hu] at h
      dsimp only at h
      rcases hy : recvExact sockA len.toNat evsA with ⟨o2, sockB, evsB⟩
      rw [hy] at h
      have hleB : evsB.length ≤ evsA.length := by
        have hh := recvExact_events_length sockA len.toNat evsA
        rw [hy] at hh
        exact hh
      cases o2 with
      | err e => simp at h
      | blocked => simp at h
      | ok body =>
        dsimp only at h
        cases hd : Packet.decode body with
        | none => rw [hd] at h; simp at h
        | some q =>
          rw [hd] at h
          simp only [Prod.mk.injEq, Outcome.ok.injEq] at h
          obtain ⟨-, -, h3⟩ := h
          subst h3
          omega

/-! ## Well-formed packet delivery

A packet arriving from the server is seen by the client as one recv
returning the 4 length-prefix bytes (recv(4) can return at most 4
bytes) and one recv returning the body. -/

/-- The two recv events by which one encoded packet arrives. -/
def deliverPacket (p : Packet) : List RecvEvent :=
  [.chunk (p.encode.take 4), .chunk (p.encode.drop 4)]

/-- The event stream of a sequence of packets arriving in order. -/
def deliverAll (ps : List Packet) : List RecvEvent :=
  ps.foldr (fun p acc => deliverPacket p ++ acc) []

theorem deliverAll_nil : deliverAll [] = [] := rfl

theorem deliverAll_cons (p : Packet) (ps : List Packet) :
    deliverAll (p :: ps) = deliverPacket p ++ deliverAll ps := rfl

theorem recvLoop_chunk_cons (n : Nat) (acc : List Nat) (b : Nat) (bs : List Nat)
    (rest : List RecvEvent) (h : acc.length < n) :
    recvLoop n acc (.chunk (b :: bs) :: rest) = recvLoop n (acc ++ b :: bs) rest := by
  conv_lhs => rw [recvLoop]
  rw [if_neg (by omega)]

/-- Reading exactly n bytes that arrive as a single n-byte chunk. -/
theorem recvExact_one_chunk (n : Nat) (bs : List Nat) (rest : List RecvEvent)
    (hn : 0 < n) (hlen : bs.length = n) :
    recvExact true n (.chunk bs :: rest) = (.ok bs, true, rest) := by
  unfold recvExact
  rw [if_pos rfl]
  cases bs with
  | nil => simp at hlen; omega
  | cons b bs' =>
    rw [recvLoop_chunk_cons n [] b bs' rest (by simpa using hn)]
    unfold recvLoop
    rw [if_pos (by simp only [List.nil_append]; omega)]
    simp

theorem Packet.encode_length (p : Packet) :
    p.encode.length = 14 + (utf8Encode p.payload).length := by
  unfold Packet.encode
  dsimp only
  simp [int32ToBytes_length, List.length_append]
  omega

/-- recv on a stream that starts with a well-formed delivered packet
returns exactly that packet, consumes exactly its two events, and keeps
the connection. -/
theorem recv_deliver (p : Packet) (rest : List RecvEvent) (hv : validPacket p) :
    recv true (deliverPacket p ++ rest) = (.ok p, true, rest) := by
  obtain ⟨hr1, hr2, ht1, ht2, hp⟩ := hv
  have hlen4 : (p.encode.take 4).length = 4 := by
    rw [List.length_take, Packet.encode_length]
    omega
  have hlenBody : (p.encode.drop 4).length = 10 + (utf8Encode p.payload).length := by
    rw [List.length_drop, Packet.encode_length]
    omega
  have hstep1 : recvExact true 4 (deliverPacket p ++ rest)
      = (.ok (p.encode.take 4), true, .chunk (p.encode.drop 4) :: rest) := by
    unfold deliverPacket
    exact recvExact_one_chunk 4 (p.encode.take 4) (.chunk (p.encode.drop 4) :: rest)
      (by omega) hlen4
  have hL : (8 : Int) + ((utf8Encode p.payload).length : Int) + 2 ≥ 0 := by positivity
  have hunpack : unpackInt32 (p.encode.take 4)
      = some (8 + ((utf8Encode p.payload).length : Int) + 2) := by
    rw [encode_take4_aux]
    exact unpackInt32_int32ToBytes _ (by omega) (by omega)
  have htoNat : ((8 : Int) + ((utf8Encode p.payload).length : Int) + 2).toNat
      = 10 + (utf8Encode p.payload).length := by
    omega
  have hstep2 : recvExact true (10 + (utf8Encode p.payload).length)
      (.chunk (p.encode.drop 4) :: rest) = (.ok (p.encode.drop 4), true, rest) :=
    recvExact_one_chunk _ _ rest (by omega) hlenBody
  have hdec : Packet.decode (p.encode.drop 4) = some p := by
    obtain ⟨id, ty, s⟩ := p
    exact decode_encode_aux id ty s hr1 hr2 ht1 ht2
  unfold recv
  rw [hstep1]
  dsimp only
  rw [hunpack]
  dsimp only
  rw [htoNat, hstep2]
  dsimp only
  rw [hdec]

/-! ## The client operations (src/mcrcon/client.py) -/

/-- client.py _SENTINEL_ID: reserved id of the synthetic end-marker packet. -/
def _SENTINEL_ID : Int := 9999

/-- The process-wide request id counter starts at 1
(itertools.count(1)); its state is the next value it will hand out. -/
def requestIdCounterStart : Nat := 1

/-- The id returned by the k-th call (0-indexed) to
next(_request_id_counter) over the lifetime of the process. -/
def idOfCall (k : Nat) : Nat := requestIdCounterStart + k

/-- The reassembly loop of RconClient.command: read packets until the
sentinel response arrives (return the joined fragments), a TimeoutError
is absorbed (return the joined fragments collected so far), any other
exception propagates.  Fragments are payloads of packets whose id
equals the command's request id; other ids are ignored. -/
def commandLoop (rid : Int) (sock : Bool) (evs : List RecvEvent)
    (acc : List String) : Outcome String × Bool :=
  match h : recv sock evs with
  | (.ok p, sock1, evs1) =>
    if p.request_id = _SENTINEL_ID then (.ok (String.join acc), sock1)
    else if p.request_id = rid then commandLoop rid sock1 evs1 (acc ++ [p.payload])
    else commandLoop rid sock1 evs1 acc
  | (.err .timeoutErr, sock1, _) => (.ok (String.join acc), sock1)
  | (.err e, sock1, _) => (.err e, sock1)
  | (.blocked, sock1, _) => (.blocked, sock1)
termination_by evs.length
decreasing_by
  all_goals exact recv_ok_consumes sock evs p sock1 evs1 h

/-- Result of one call to RconClient.command. -/
structure CommandResult where
  sent : List Packet
  result : Outcome String
  sock : Bool
  counter : Nat
deriving DecidableEq, Repr

/-- RconClient.command: allocate a request id, send the real COMMAND
packet, send the sentinel COMMAND packet (id _SENTINEL_ID, empty
payload), then run the reassembly loop.  `counter` is the state of the
process-wide id counter; `sent` records the packets handed to _send. -/
def command (sock : Bool) (counter : Nat) (cmd : String)
    (send1 send2 : SendEvent) (evs : List RecvEvent) : CommandResult :=
  let rid : Int := counter
  let pkt1 : Packet := ⟨rid, PacketType.COMMAND, cmd⟩
  let pkt2 : Packet := ⟨_SENTINEL_ID, PacketType.COMMAND, ""⟩
  match sendP sock pkt1 send1 with
  | (some e, sock1) => ⟨[pkt1], .err e, sock1, counter + 1⟩
  | (none, sock1) =>
    match sendP sock1 pkt2 send2 with
    | (some e, sock2) => ⟨[pkt1, pkt2], .err e, sock2, counter + 1⟩
    | (none, sock2) =>
      let r := commandLoop rid sock2 evs []
      ⟨[pkt1, pkt2], r.1, r.2, counter + 1⟩

/-- Result of one call to RconClient.authenticate. -/
structure AuthResult where
  sent : List Packet
  outcome : Outcome Unit
  sock : Bool
  counter : Nat
  events : List RecvEvent
deriving DecidableEq, Repr

/-- RconClient.authenticate: allocate a request id, send one LOGIN
packet carrying the password, read exactly one response packet; a
response with request_id -1 raises AuthenticationError, anything else
is success.  `events` is what is left of the stream afterwards. -/
def authenticate (sock : Bool) (counter : Nat) (password : String)
    (sendEv : SendEvent) (evs : List RecvEvent) : AuthResult :=
  let rid : Int := counter
  let pkt : Packet := ⟨rid, PacketType.LOGIN, password⟩
  match sendP sock pkt sendEv with
  | (some e, sock1) => ⟨[pkt], .err e, sock1, counter + 1, evs⟩
  | (none, sock1) =>
    match recv sock1 evs with
    | (.ok resp, sock2, evs2) =>
      if resp.request_id = -1 then
        ⟨[pkt], .err (.authError ("Authentication failed: incorrect RCON password")),
          sock2, counter + 1, evs2⟩
      else ⟨[pkt], .ok (), sock2, counter + 1, evs2⟩
    | (.err e, sock2, evs2) => ⟨[pkt], .err e, sock2, counter + 1, evs2⟩
    | (.blocked, sock2, evs2) => ⟨[pkt], .blocked, sock2, counter + 1, evs2⟩

theorem commandLoop_ok (rid : Int) (sock : Bool) (evs : List RecvEvent)
    (acc : List String) (p : Packet) (sock1 : Bool) (evs1 : List RecvEvent)
    (h : recv sock evs = (.ok p, sock1, evs1)) :
    commandLoop rid sock evs acc
      = if p.request_id = _SENTINEL_ID then (.ok (String.join acc), sock1)
        else if p.request_id = rid then commandLoop rid sock1 evs1 (acc ++ [p.payload])
        else commandLoop rid sock1 evs1 acc := by
  rw [commandLoop]
  rw [h]

theorem commandLoop_timeoutCase (rid : Int) (sock : Bool) (evs : List RecvEvent)
    (acc : List String) (sock1 : Bool) (evs1 : List RecvEvent)
    (h : recv sock evs = (.err .timeoutErr, sock1, evs1)) :
    commandLoop rid sock evs acc = (.ok (String.join acc), sock1) := by
  rw [commandLoop]
  rw [h]

theorem commandLoop_errCase (rid : Int) (sock : Bool) (evs : List RecvEvent)
    (acc : List String) (e : Err) (sock1 : Bool) (evs1 : List RecvEvent)
    (h : recv sock evs = (.err e, sock1, evs1)) (hne : e ≠ .timeoutErr) :
    commandLoop rid sock evs acc = (.err e, sock1) := by
  rw [commandLoop]
  rw [h]
  cases e with
  | timeoutErr => exact absurd rfl hne
  | connError msg => rfl
  | authError msg => rfl
  | structErr => rfl

theorem recv_timeout_head (rest : List RecvEvent) :
    recv true (.timeout :: rest) = (.err .timeoutErr, true, rest) := by
  have hx : recvExact true 4 ((.timeout : RecvEvent) :: rest)
      = (.err .timeoutErr, true, rest) := by
    unfold recvExact
    rw [if_pos rfl]
    rw [recvLoop]
    rw [if_neg (by simp)]
  unfold recv
  rw [hx]

theorem recv_oserror_head (msg : String) (rest : List RecvEvent) :
    recv true (.oserror msg :: rest)
      = (.err (.connError ("Connection lost: " ++ msg)), false, rest) := by
  have hx : recvExact true 4 ((.oserror msg : RecvEvent) :: rest)
      = (.err (.connError ("Connection lost: " ++ msg)), false, rest) := by
    unfold recvExact
    rw [if_pos rfl]
    rw [recvLoop]
    rw [if_neg (by simp)]
  unfold recv
  rw [hx]

theorem recv_closed_head (rest : List RecvEvent) :
    recv true (.chunk [] :: rest)
      = (.err (.connError ("Connection closed by server")), false, rest) := by
  have hx : recvExact true 4 ((.chunk [] : RecvEvent) :: rest)
      = (.err (.connError ("Connection closed by server")), false, rest) := by
    unfold recvExact
    rw [if_pos rfl]
    rw [recvLoop]
    rw [if_neg (by simp)]
  unfold recv
  rw [hx]

theorem recv_notConnected (evs : List RecvEvent) :
    recv false evs = (.err (.connError ("Not connected")), false, evs) := by
  have hx : recvExact false 4 evs
      = (.err (.connError ("Not connected")), false, evs) := by
    unfold recvExact
    rw [if_neg (by simp)]
  unfold recv
  rw [hx]

/-- The payloads that the spec says command() concatenates: packets
arriving before the first sentinel-id packet whose id equals the
command's request id. -/
def fragmentsBeforeSentinel (rid : Int) (ps : List Packet) : List String :=
  ((ps.takeWhile (fun p => p.request_id ≠ _SENTINEL_ID)).filter
    (fun p => p.request_id = rid)).map Packet.payload

theorem fragmentsBeforeSentinel_cons_sentinel (rid : Int) (p : Packet)
    (ps : List Packet) (hsent : p.request_id = _SENTINEL_ID) :
    fragmentsBeforeSentinel rid (p :: ps) = [] := by
  unfold fragmentsBeforeSentinel
  rw [List.takeWhile_cons]
  simp [hsent]

theorem fragmentsBeforeSentinel_cons (rid : Int) (p : Packet)
    (ps : List Packet) (hsent : p.request_id ≠ _SENTINEL_ID) :
    fragmentsBeforeSentinel rid (p :: ps)
      = (if p.request_id = rid then [p.payload] else [])
        ++ fragmentsBeforeSentinel rid ps := by
  unfold fragmentsBeforeSentinel
  rw [List.takeWhile_cons]
  simp only [hsent, decide_not, decide_False, Bool.not_false, if_true]
  rw [List.filter_cons]
  by_cases hrid : p.request_id = rid
  · simp [hrid]
  · simp [hrid]

theorem commandLoop_deliverAll (rid : Int) (ps : List Packet) (acc : List String)
    (hv : ∀ p ∈ ps, validPacket p)
    (hs : ∃ p ∈ ps, p.request_id = _SENTINEL_ID) :
    commandLoop rid true (deliverAll ps) acc
      = (.ok (String.join (acc ++ fragmentsBeforeSentinel rid ps)), true) := by
  induction ps generalizing acc with
  | nil => simp at hs
  | cons p ps ih =>
    rw [deliverAll_cons]
    have hvp : validPacket p := hv p (by simp)
    rw [commandLoop_ok rid true _ acc p true (deliverAll ps)
      (recv_deliver p (deliverAll ps) hvp)]
    by_cases hsent : p.request_id = _SENTINEL_ID
    · rw [if_pos hsent, fragmentsBeforeSentinel_cons_sentinel rid p ps hsent,
        List.append_nil]
    · rw [if_neg hsent, fragmentsBeforeSentinel_cons rid p ps hsent]
      have hs' : ∃ q ∈ ps, q.request_id = _SENTINEL_ID := by
        rcases hs with ⟨q, hq, hqe⟩
        rcases List.mem_cons.mp hq with rfl | hq'
        · exact absurd hqe hsent
        · exact ⟨q, hq', hqe⟩
      have hv' : ∀ q ∈ ps, validPacket q := fun q hq => hv q (by simp [hq])
      by_cases hrid : p.request_id = rid
      · rw [if_pos hrid, ih (acc ++ [p.payload]) hv' hs']
        rw [if_pos hrid, List.append_assoc]
      · rw [if_neg hrid, ih acc hv' hs']
        rw [if_neg hrid, List.nil_append]

/-- Consuming a sentinel-free prefix of well-formed packets just
accumulates the matching payloads and continues with the rest of the
stream. -/
theorem commandLoop_deliverAll_then (rid : Int) (ps : List Packet)
    (tailEvs : List RecvEvent)
    (hv : ∀ p ∈ ps, validPacket p)
    (hns : ∀ p ∈ ps, p.request_id ≠ _SENTINEL_ID) :
    ∀ acc, commandLoop rid true (deliverAll ps ++ tailEvs) acc
      = commandLoop rid true tailEvs
          (acc ++ (ps.filter (fun p => p.request_id = rid)).map Packet.payload) := by
  induction ps with
  | nil => intro acc; simp [deliverAll_nil]
  | cons p ps ih =>
    intro acc
    rw [deliverAll_cons, List.append_assoc]
    have hvp : validPacket p := hv p (by simp)
    rw [commandLoop_ok rid true _ acc p true (deliverAll ps ++ tailEvs)
      (recv_deliver p (deliverAll ps ++ tailEvs) hvp)]
    have hsent : p.request_id ≠ _SENTINEL_ID := hns p (by simp)
    rw [if_neg hsent]
    have hv' : ∀ q ∈ ps, validPacket q := fun q hq => hv q (by simp [hq])
    have hns' : ∀ q ∈ ps, q.request_id ≠ _SENTINEL_ID := fun q hq => hns q (by simp [hq])
    rw [List.filter_cons]
    by_cases hrid : p.request_id = rid
    · rw [if_pos hrid, ih hv' hns' (acc ++ [p.payload])]
      simp [List.append_assoc, hrid]
    · rw [if_neg hrid, ih hv' hns' acc]
      simp [hrid]

theorem command_ok_sends (counter : Nat) (cmd : String) (evs : List RecvEvent) :
    command true counter cmd .ok .ok evs
      = ⟨[⟨(counter : Int), PacketType.COMMAND, cmd⟩,
          ⟨_SENTINEL_ID, PacketType.COMMAND, ""⟩],
         (commandLoop (counter : Int) true evs []).1,
         (commandLoop (counter : Int) true evs []).2,
         counter + 1⟩ := rfl

/-- Claim C1: after command() sends its two packets, it returns exactly
the concatenation, in arrival order and with no delimiter, of the
payloads of the response packets whose id equals the allocated request
id and that arrive before the first sentinel-id packet; packets with
any other id contribute nothing, and the empty string is a valid
result. -/
theorem command_reassembles (counter : Nat) (cmd : String) (ps : List Packet)
    (hv : ∀ p ∈ ps, validPacket p)
    (hs : ∃ p ∈ ps, p.request_id = _SENTINEL_ID) :
    (command true counter cmd .ok .ok (deliverAll ps)).result
      = .ok (String.join (fragmentsBeforeSentinel (counter : Int) ps)) := by
  rw [command_ok_sends]
  dsimp only
  rw [commandLoop_deliverAll (counter : Int) ps [] hv hs]
  rw [List.nil_append]

/-- Witness for C1: the packet sequence with ids [R, R, SENTINEL] and
payloads "First part ", "Second part", "" yields "First part Second
part". -/
theorem command_reassembles_witness :
    (command true 1 ("list") .ok .ok (deliverAll
      [⟨1, PacketType.RESPONSE, ("First part ")⟩,
       ⟨1, PacketType.RESPONSE, ("Second part")⟩,
       ⟨_SENTINEL_ID, PacketType.RESPONSE, ("")⟩])).result
      = .ok ("First part Second part") := by
  rw [command_reassembles 1 ("list")
    [⟨1, PacketType.RESPONSE, ("First part ")⟩,
     ⟨1, PacketType.RESPONSE, ("Second part")⟩,
     ⟨_SENTINEL_ID, PacketType.RESPONSE, ("")⟩]
    (by decide) (by decide)]
  rfl

/-- Claim C2: if a read raises Timeout before any sentinel-id packet
has been received, command() does not raise; it stops immediately and
returns the concatenation of the fragments collected so far. -/
theorem command_timeout_fragments (counter : Nat) (cmd : String) (ps : List Packet)
    (rest : List RecvEvent)
    (hv : ∀ p ∈ ps, validPacket p)
    (hns : ∀ p ∈ ps, p.request_id ≠ _SENTINEL_ID) :
    (command true counter cmd .ok .ok (deliverAll ps ++ .timeout :: rest)).result
      = .ok (String.join
          ((ps.filter (fun p => p.request_id = (counter : Int))).map Packet.payload)) := by
  rw [command_ok_sends]
  dsimp only
  rw [commandLoop_deliverAll_then (counter : Int) ps (.timeout :: rest) hv hns []]
  rw [commandLoop_timeoutCase _ true _ _ true rest (recv_timeout_head rest)]
  rw [List.nil_append]

/-- Witness for C2: one fragment arrives, then the read times out;
command() returns that fragment without raising. -/
theorem command_timeout_fragments_witness :
    (command true 2 ("status") .ok .ok
      (deliverAll [⟨2, PacketType.RESPONSE, ("partial out")⟩] ++ .timeout :: [])).result
      = .ok ("partial out") := by
  rw [command_timeout_fragments 2 ("status") [⟨2, PacketType.RESPONSE, ("partial out")⟩] []
    (by decide) (by decide)]
  rfl

/-- Claim C4: authenticate(password) sends one LOGIN packet and reads
exactly one response packet; requestId -1 in the response raises
AuthenticationError, any other requestId (matching the sent id or not)
returns successfully. -/
theorem authenticate_spec (counter : Nat) (pw : String) (resp : Packet)
    (evs : List RecvEvent) (hv : validPacket resp) :
    (authenticate true counter pw .ok (deliverPacket resp ++ evs)).sent
        = [⟨(counter : Int), PacketType.LOGIN, pw⟩]
      ∧ (authenticate true counter pw .ok (deliverPacket resp ++ evs)).events = evs
      ∧ (resp.request_id = -1 →
          (authenticate true counter pw .ok (deliverPacket resp ++ evs)).outcome
            = .err (.authError ("Authentication failed: incorrect RCON password")))
      ∧ (resp.request_id ≠ -1 →
          (authenticate true counter pw .ok (deliverPacket resp ++ evs)).outcome
            = .ok ()) := by
  have hrec := recv_deliver resp evs hv
  by_cases hid : resp.request_id = -1 <;>
    simp [authenticate, sendP, hrec, hid]

/-- Witness for C4 at a rejecting response (requestId -1). -/
theorem authenticate_spec_witness :
    (authenticate true 3 ("hunter2") .ok
        (deliverPacket ⟨-1, PacketType.COMMAND, ("")⟩ ++ [])).sent
        = [⟨(3 : Int), PacketType.LOGIN, ("hunter2")⟩]
      ∧ (authenticate true 3 ("hunter2") .ok
          (deliverPacket ⟨-1, PacketType.COMMAND, ("")⟩ ++ [])).events = []
      ∧ ((⟨-1, PacketType.COMMAND, ("")⟩ : Packet).request_id = -1 →
          (authenticate true 3 ("hunter2") .ok
            (deliverPacket ⟨-1, PacketType.COMMAND, ("")⟩ ++ [])).outcome
            = .err (.authError ("Authentication failed: incorrect RCON password")))
      ∧ ((⟨-1, PacketType.COMMAND, ("")⟩ : Packet).request_id ≠ -1 →
          (authenticate true 3 ("hunter2") .ok
            (deliverPacket ⟨-1, PacketType.COMMAND, ("")⟩ ++ [])).outcome
            = .ok ()) :=
  authenticate_spec 3 ("hunter2") ⟨-1, PacketType.COMMAND, ("")⟩ [] (by decide)

/-- Claim C10: when authenticate raises because the server replied with
requestId -1, the connection state is untouched: the socket stays open
and connected remains true. -/
theorem authenticate_reject_keeps_connection (counter : Nat) (pw : String)
    (resp : Packet) (evs : List RecvEvent)
    (hv : validPacket resp) (hid : resp.request_id = -1) :
    (authenticate true counter pw .ok (deliverPacket resp ++ evs)).outcome
        = .err (.authError ("Authentication failed: incorrect RCON password"))
      ∧ (authenticate true counter pw .ok (deliverPacket resp ++ evs)).sock = true := by
  have hrec := recv_deliver resp evs hv
  simp [authenticate, sendP, hrec, hid]

/-- Witness for C10. -/
theorem authenticate_reject_keeps_connection_witness :
    (authenticate true 4 ("pw") .ok
        (deliverPacket ⟨-1, PacketType.COMMAND, ("")⟩ ++ [])).outcome
        = .err (.authError ("Authentication failed: incorrect RCON password"))
      ∧ (authenticate true 4 ("pw") .ok
          (deliverPacket ⟨-1, PacketType.COMMAND, ("")⟩ ++ [])).sock = true :=
  authenticate_reject_keeps_connection 4 ("pw") ⟨-1, PacketType.COMMAND, ("")⟩ []
    (by decide) (by decide)

/-- Claim C9: with no connection established (or after being driven to
the disconnected state), command() and authenticate() fail with the
typed "Not connected" ConnectionError instead of crashing. -/
theorem notConnected_fails :
    (∀ counter pw sendEv evs,
       (authenticate false counter pw sendEv evs).outcome
         = .err (.connError ("Not connected"))
       ∧ (authenticate false counter pw sendEv evs).sock = false)
    ∧ (∀ counter cmd s1 s2 evs,
       (command false counter cmd s1 s2 evs).result
         = .err (.connError ("Not connected"))
       ∧ (command false counter cmd s1 s2 evs).sock = false) := by
  constructor
  · intro counter pw sendEv evs
    simp [authenticate, sendP]
  · intro counter cmd s1 s2 evs
    simp [command, sendP]

/-- Claim C8: every OS-level failure during send or receive — including
a zero-length read, reported as ConnectionError("Connection closed by
server"), distinct from Timeout — propagates out of authenticate and
command as a connection-lost condition and leaves the session
disconnected; a read timeout propagates as TimeoutError and does not
force disconnection. -/
theorem transport_failure_handling :
    (∀ counter pw msg evs,
       (authenticate true counter pw (.oserror msg) evs).outcome
         = .err (.connError ("Failed to send data: " ++ msg))
       ∧ (authenticate true counter pw (.oserror msg) evs).sock = false)
    ∧ (∀ counter pw evs,
       (authenticate true counter pw .ok (.chunk [] :: evs)).outcome
         = .err (.connError ("Connection closed by server"))
       ∧ (authenticate true counter pw .ok (.chunk [] :: evs)).sock = false)
    ∧ (∀ counter pw evs,
       (authenticate true counter pw .ok (.timeout :: evs)).outcome
         = .err .timeoutErr
       ∧ (authenticate true counter pw .ok (.timeout :: evs)).sock = true)
    ∧ (∀ counter cmd msg s2 evs,
       (command true counter cmd (.oserror msg) s2 evs).result
         = .err (.connError ("Failed to send data: " ++ msg))
       ∧ (command true counter cmd (.oserror msg) s2 evs).sock = false)
    ∧ (∀ counter cmd msg evs,
       (command true counter cmd .ok (.oserror msg) evs).result
         = .err (.connError ("Failed to send data: " ++ msg))
       ∧ (command true counter cmd .ok (.oserror msg) evs).sock = false)
    ∧ (∀ counter cmd ps msg rest,
       (∀ p ∈ ps, validPacket p) → (∀ p ∈ ps, p.request_id ≠ _SENTINEL_ID) →
       (command true counter cmd .ok .ok
           (deliverAll ps ++ .oserror msg :: rest)).result
         = .err (.connError ("Connection lost: " ++ msg))
       ∧ (command true counter cmd .ok .ok
           (deliverAll ps ++ .oserror msg :: rest)).sock = false)
    ∧ (∀ counter cmd ps rest,
       (∀ p ∈ ps, validPacket p) → (∀ p ∈ ps, p.request_id ≠ _SENTINEL_ID) →
       (command true counter cmd .ok .ok
           (deliverAll ps ++ .chunk [] :: rest)).result
         = .err (.connError ("Connection closed by server"))
       ∧ (command true counter cmd .ok .ok
           (deliverAll ps ++ .chunk [] :: rest)).sock = false) := by
  refine ⟨?_, ?_, ?_, ?_, ?_, ?_, ?_⟩
  · intro counter pw msg evs
    simp [authenticate, sendP]
  · intro counter pw evs
    simp [authenticate, sendP, recv_closed_head]
  · intro counter pw evs
    simp [authenticate, sendP, recv_timeout_head]
  · intro counter cmd msg s2 evs
    simp [command, sendP]
  · intro counter cmd msg evs
    simp [command, sendP]
  · intro counter cmd ps msg rest hv hns
    rw [command_ok_sends]
    dsimp only
    rw [commandLoop_deliverAll_then (counter : Int) ps (.oserror msg :: rest) hv hns []]
    rw [commandLoop_errCase _ true _ _ _ false rest (recv_oserror_head msg rest) (by simp)]
    exact ⟨rfl, rfl⟩
  · intro counter cmd ps rest hv hns
    rw [command_ok_sends]
    dsimp only
    rw [commandLoop_deliverAll_then (counter : Int) ps (.chunk [] :: rest) hv hns []]
    rw [commandLoop_errCase _ true _ _ _ false rest (recv_closed_head rest) (by simp)]
    exact ⟨rfl, rfl⟩

/-- Witness for C8: a fragment arrives, then the peer closes the
connection mid-reassembly. -/
theorem transport_failure_handling_witness :
    (command true 7 ("list") .ok .ok
        (deliverAll [⟨7, PacketType.RESPONSE, ("part one")⟩] ++ .chunk [] :: [])).result
      = .err (.connError ("Connection closed by server"))
    ∧ (command true 7 ("list") .ok .ok
        (deliverAll [⟨7, PacketType.RESPONSE, ("part one")⟩] ++ .chunk [] :: [])).sock
      = false :=
  transport_failure_handling.2.2.2.2.2.2 7 ("list")
    [⟨7, PacketType.RESPONSE, ("part one")⟩] [] (by decide) (by decide)

theorem command_sent_head (sock : Bool) (c : Nat) (cmd : String)
    (s1 s2 : SendEvent) (evs : List RecvEvent) :
    (command sock c cmd s1 s2 evs).sent.head?
      = some ⟨(c : Int), PacketType.COMMAND, cmd⟩ := by
  unfold command
  dsimp only
  rcases sendP sock ⟨(c : Int), PacketType.COMMAND, cmd⟩ s1 with ⟨o1, sk1⟩
  cases o1 with
  | some e => rfl
  | none =>
    dsimp only
    rcases sendP sk1 ⟨_SENTINEL_ID, PacketType.COMMAND, ""⟩ s2 with ⟨o2, sk2⟩
    cases o2 with
    | some e => rfl
    | none => rfl

theorem authenticate_sent (sock : Bool) (c : Nat) (pw : String)
    (sendEv : SendEvent) (evs : List RecvEvent) :
    (authenticate sock c pw sendEv evs).sent
      = [⟨(c : Int), PacketType.LOGIN, pw⟩] := by
  unfold authenticate
  dsimp only
  rcases sendP sock ⟨(c : Int), PacketType.LOGIN, pw⟩ sendEv with ⟨o1, sk1⟩
  cases o1 with
  | some e => rfl
  | none =>
    dsimp only
    rcases recv sk1 evs with ⟨o2, sk2, evs2⟩
    cases o2 with
    | ok resp =>
      dsimp only
      split <;> rfl
    | err e => rfl
    | blocked => rfl

/-- Counterexample to claim C5 as stated: the shared counter does reach
the sentinel value.  On its 9999th call (0-indexed call 9998) it hands
out id 9999, and the real COMMAND packet sent with that id carries
exactly _SENTINEL_ID. -/
theorem requestId_sentinel_collision :
    idOfCall 9998 = 9999
    ∧ (command true (idOfCall 9998) ("say hi") .ok .ok []).sent.head?
        = some ⟨_SENTINEL_ID, PacketType.COMMAND, ("say hi")⟩ := by
  constructor
  · rfl
  · rfl

/-- Claim C5 amended: for every id handed out before the counter
reaches 9999 — every realistic run — the id given to a real COMMAND or
LOGIN packet differs from the reserved sentinel id, which is used only
for the synthetic end-marker packet. -/
theorem requestId_ne_sentinel (k : Nat) (hk : k < 9998) :
    ((idOfCall k : Int) ≠ _SENTINEL_ID)
    ∧ (∀ sock cmd s1 s2 evs,
        (command sock (idOfCall k) cmd s1 s2 evs).sent.head?
          = some ⟨(idOfCall k : Int), PacketType.COMMAND, cmd⟩)
    ∧ (∀ sock pw sendEv evs,
        (authenticate sock (idOfCall k) pw sendEv evs).sent
          = [⟨(idOfCall k : Int), PacketType.LOGIN, pw⟩]) := by
  refine ⟨?_, ?_, ?_⟩
  · unfold idOfCall requestIdCounterStart _SENTINEL_ID
    omega
  · intro sock cmd s1 s2 evs
    exact command_sent_head sock (idOfCall k) cmd s1 s2 evs
  · intro sock pw sendEv evs
    exact authenticate_sent sock (idOfCall k) pw sendEv evs

/-- Witness for the amended C5 at the first allocation. -/
theorem requestId_ne_sentinel_witness :
    ((idOfCall 0 : Int) ≠ _SENTINEL_ID)
    ∧ (∀ sock cmd s1 s2 evs,
        (command sock (idOfCall 0) cmd s1 s2 evs).sent.head?
          = some ⟨(idOfCall 0 : Int), PacketType.COMMAND, cmd⟩)
    ∧ (∀ sock pw sendEv evs,
        (authenticate sock (idOfCall 0) pw sendEv evs).sent
          = [⟨(idOfCall 0 : Int), PacketType.LOGIN, pw⟩]) :=
  requestId_ne_sentinel 0 (by decide)

/-! ## Reconnect with exponential backoff (src/mcrcon/repl.py) -/

/-- repl.py MAX_RECONNECT_ATTEMPTS. -/
def MAX_RECONNECT_ATTEMPTS : Nat := 3

/-- The loop of _reconnect, from a given attempt index: sleep 2^attempt
seconds, then try connect+authenticate (outcome given by f; any raised
exception counts as failure and continues the loop).  Returns the list
of sleeps performed and whether reconnection succeeded. -/
def reconnectFrom (f : Nat → Bool) (attempt : Nat) : List Nat × Bool :=
  if attempt < MAX_RECONNECT_ATTEMPTS then
    let delay := 2 ^ attempt
    if f attempt then (delay :: [], true)
    else
      let r := reconnectFrom f (attempt + 1)
      (delay :: r.1, r.2)
  else ([], false)
termination_by MAX_RECONNECT_ATTEMPTS - attempt

/-- repl.py _reconnect (with connect+authenticate outcomes abstracted
into f): starts at attempt 0 and returns False after exhausting
MAX_RECONNECT_ATTEMPTS attempts. -/
def reconnect (f : Nat → Bool) : List Nat × Bool := reconnectFrom f 0

/-- Claim C6: when every connect-and-authenticate attempt fails, the
reconnect cycle makes exactly 3 attempts with delays 2^0=1s, 2^1=2s,
2^2=4s before each, then reports terminal failure. -/
theorem reconnect_all_fail (f : Nat → Bool)
    (hf : ∀ j, j < MAX_RECONNECT_ATTEMPTS → f j = false) :
    reconnect f = ([1, 2, 4], false) := by
  have h0 : f 0 = false := hf 0 (by decide)
  have h1 : f 1 = false := hf 1 (by decide)
  have h2 : f 2 = false := hf 2 (by decide)
  unfold reconnect
  rw [reconnectFrom]
  rw [reconnectFrom]
  rw [reconnectFrom]
  rw [reconnectFrom]
  norm_num [h0, h1, h2, MAX_RECONNECT_ATTEMPTS]

/-- Witness for C6: the always-failing connect. -/
theorem reconnect_all_fail_witness :
    reconnect (fun _ => false) = ([1, 2, 4], false) :=
  reconnect_all_fail (fun _ => false) (fun _ _ => rfl)
